import Mathlib

/-!
Shallow embedding of the power scheduler of the home-manager repository
(file `src/scheduler.py`): power usage records, the
`PowerUsageSlidingWindow` analysis class and the `Scheduler` election and
eviction cycle.  Python floats are modelled as rationals, Python dicts as
association lists with first-match lookup, and Python exceptions
(`KeyError`, `ZeroDivisionError`, `IndexError`, `ValueError`) as `Option`
failure or an explicit error flag.
-/

namespace HM

/-- A power record channel name, for instance `net`, `solar` or `wh`. -/
abbrev Channel := String

/-- A power sensor record: a Python dict from channel names to powers,
modelled as an association list in dict insertion order. -/
abbrev Rec := List (Channel × ℚ)

/-- Dict lookup `record[key]` returning `none` on a missing key
(a Python `KeyError`). -/
def rget? (r : Rec) (k : Channel) : Option ℚ :=
  match r with
  | [] => none
  | (k', v) :: rest => if k' = k then some v else rget? rest k

/-- Membership test `key in record.keys()`. -/
def rmem (r : Rec) (k : Channel) : Bool :=
  (rget? r k).isSome

/-- Dict assignment `record[key] = value`: replaces the value in place if
the key exists, otherwise appends the new key at the end, exactly as a
Python dict keeps insertion order. -/
def rset (r : Rec) (k : Channel) (v : ℚ) : Rec :=
  match r with
  | [] => [(k, v)]
  | (k', v') :: rest => if k' = k then (k', v) :: rest else (k', v') :: rset rest k v

/-- Read-modify-write of one key, `record[key] op= value`; fails with a
`KeyError` when the key is absent. -/
def rmodify (r : Rec) (k : Channel) (f : ℚ → ℚ) : Option Rec :=
  match rget? r k with
  | none => none
  | some v => some (rset r k (f v))

/-- `PowerUsageSlidingWindow.__usage` and `Task.usage`: sum record values
over the given keys, skipping keys absent from the record. -/
def usage (r : Rec) (keys : List Channel) : ℚ :=
  keys.foldl (fun cur k => match rget? r k with
    | some v => cur + v
    | none => cur) 0

/-- `PowerUsageSlidingWindow.__set_usage`: divide the usage equally among
the keys and write that share to every key.  Fails when `keys` is empty
(Python raises `ZeroDivisionError` on `usage /= len(keys)`). -/
def set_usage (r : Rec) (keys : List Channel) (u : ℚ) : Option Rec :=
  if keys = [] then none
  else
    let share := u / (keys.length : ℚ)
    some (keys.foldl (fun a k => rset a k share) r)

/-- The scheduler `Task`: static attributes plus the snapshot of the
feedback calls (`is_runnable`, `is_running`, `is_stoppable`,
`meet_running_criteria`) the scheduler makes during one cycle.  The `id`
field stands for the Pyro URI, which is what Python task proxy equality
compares. -/
structure Task where
  id : ℕ
  priority : ℤ
  power : ℚ
  keys : List Channel
  auto_adjust : Bool
  is_runnable : Bool
  is_running : Bool
  is_stoppable : Bool
  meet_running_criteria : ℚ → ℚ → Bool

/-- `PowerUsageSlidingWindow.__minimize`: reduce the task consumption in
the record to the task `power` attribute, adjusting the `net` channel
accordingly. -/
def minimize (t : Task) (r : Rec) : Option Rec :=
  match rmodify r "net" (fun v => v - usage r t.keys) with
  | none => none
  | some r1 =>
    match set_usage r1 t.keys t.power with
    | none => none
    | some r2 => rmodify r2 "net" (fun v => v + t.power)

/-- `PowerUsageSlidingWindow.__suppress`: remove the task consumption
from the record, adjusting the `net` channel accordingly. -/
def suppress (t : Task) (r : Rec) : Option Rec :=
  match rmodify r "net" (fun v => v - usage r t.keys) with
  | none => none
  | some r1 => set_usage r1 t.keys 0

/-- The `PowerUsageSlidingWindow`: a ring of at most `size` records plus
the `ignore_power_threshold` noise threshold. -/
structure Window where
  size : ℕ
  ignore_power_threshold : ℚ
  window : List Rec

/-- One channel value on ingest: `update` coerces a value `v` with
`0 < v < ignore_power_threshold` to `0` and keeps every other value,
negative values included. -/
def coerceEntry (threshold v : ℚ) : ℚ :=
  if 0 < v ∧ v < threshold then 0 else v

/-- A whole record on ingest: every channel value coerced by
`coerceEntry`. -/
def coerceRecord (threshold : ℚ) (r : Rec) : Rec :=
  r.map (fun kv => (kv.1, coerceEntry threshold kv.2))

/-- `PowerUsageSlidingWindow.update`: coerce the record values below the
threshold to zero and append the record, evicting the oldest records
beyond the ring capacity, as `deque(maxlen=size)` does. -/
def Window.update (w : Window) (r : Rec) : Window :=
  let r' := coerceRecord w.ignore_power_threshold r
  let win := w.window ++ [r']
  { w with window := win.drop (win.length - w.size) }

/-- The caller-visible state of the record argument after
`PowerUsageSlidingWindow.update` returns: the Python code assigns
`record[key] = 0` on the caller's own dict inside its loop and then
appends that same object to the window without copying it, so the
caller's record is the coerced record. -/
def update_record_after (threshold : ℚ) (r : Rec) : Rec :=
  coerceRecord threshold r

/-- `PowerUsageSlidingWindow.clear`: drop every buffered record. -/
def Window.clear (w : Window) : Window :=
  { w with window := [] }

/-- The most recent record `self.window[-1]`; `none` models the
`IndexError` raised on an empty window. -/
def Window.latest (w : Window) : Option Rec :=
  w.window.getLast?

/-- `PowerUsageSlidingWindow.power_used_by`: the task usage in the most
recent record. -/
def Window.power_used_by (w : Window) (t : Task) : Option ℚ :=
  match w.latest with
  | none => none
  | some r => some (usage r t.keys)

/-- `PowerUsageSlidingWindow.available_for`: rewrite a copy of the latest
record by `__minimize` for every task of `minimum` and then by
`__suppress` for every task of `ignore`, and return
`max(0, -record[net] / task.power)`.  The `none` results model the
`IndexError`, `KeyError` and `ZeroDivisionError` the Python code can
raise, in particular the unguarded division by `task.power`. -/
def Window.available_for (w : Window) (t : Task)
    (minimum : List Task) (ignore : List Task) : Option ℚ :=
  match w.latest with
  | none => none
  | some r0 =>
    match minimum.foldlM (fun r x => minimize x r) r0 with
    | none => none
    | some r1 =>
      match ignore.foldlM (fun r x => suppress x r) r1 with
      | none => none
      | some r2 =>
        match rget? r2 "net" with
        | none => none
        | some net =>
          if t.power = 0 then none
          else some (max 0 (-net / t.power))

/-- The body of `PowerUsageSlidingWindow.__reducer_generator`: rewrite a
copy of the record by `__minimize` and `__suppress` for the tasks that
were drawing power in that record, then add every channel of the record
into the accumulator with `accumulator.get(key, 0) + value`. -/
def reducer_step (minimize0 ignore0 : List Task) (acc : Rec) (r : Rec) :
    Option Rec :=
  match minimize0.foldlM
      (fun rc x => if usage rc x.keys > 0 then minimize x rc else some rc) r with
  | none => none
  | some r1 =>
    match ignore0.foldlM
        (fun rc x => if usage rc x.keys > 0 then suppress x rc else some rc) r1 with
    | none => none
    | some r2 =>
      some (r2.foldl (fun a kv => rset a kv.1 ((rget? a kv.1).getD 0 + kv.2)) acc)

/-- `PowerUsageSlidingWindow.covered_by_production`: return `1` when the
task shows no usage in the latest record; otherwise reduce over the list
`running` built from a copy of the latest record followed by the
reversed-window records up to the first one where the task usage is
zero, and return `max(0, -1 * (accumulator[net] - total) / total)` where
`total` is the task usage of the accumulator. -/
def Window.covered_by_production (w : Window) (t : Task)
    (minimize0 ignore0 : List Task) : Option ℚ :=
  match w.latest with
  | none => none
  | some last =>
    if usage last t.keys = 0 then some 1
    else
      let tail := w.window.reverse.takeWhile (fun r => usage r t.keys ≠ 0)
      let running := last :: tail
      let init : Rec := last.map (fun kv => (kv.1, (0 : ℚ)))
      match running.foldlM (fun a r => reducer_step minimize0 ignore0 a r) init with
      | none => none
      | some acc =>
        let total := usage acc t.keys
        match rget? acc "net" with
        | none => none
        | some net =>
          if total = 0 then none
          else some (max 0 (-1 * (net - total) / total))

/-- `compare_task`: compare two tasks by priority, then auto-adjust flag,
then power; returns `1`, `-1` or `0`. -/
def compare_task (t1 t2 : Task) : ℤ :=
  if t1.priority > t2.priority then 1
  else if t1.priority < t2.priority then -1
  else if t1.auto_adjust ∧ ¬ t2.auto_adjust then 1
  else if ¬ t1.auto_adjust ∧ t2.auto_adjust then -1
  else if t1.power > t2.power then 1
  else if t2.power > t1.power then -1
  else 0

/-- Python `task in list` on task proxies: membership by Pyro URI, here
by the `id` field. -/
def memById (t : Task) (l : List Task) : Bool :=
  l.any (fun x => x.id = t.id)

/-- Python `list.remove(task)`: drop the first element with the same id,
keep the list unchanged when the task is absent (the caller checks
presence to model the `ValueError`). -/
def removeById (l : List Task) (v : Task) : List Task :=
  match l with
  | [] => []
  | x :: rest => if x.id = v.id then rest else x :: removeById rest v

/-- Stable insertion used to model Python stable `sorted`: the new
element is placed before the first element it must strictly precede. -/
def insertBy (lt : Task → Task → Bool) (a : Task) : List Task → List Task
  | [] => [a]
  | b :: rest => if lt a b then a :: b :: rest else b :: insertBy lt a rest

/-- Python `sorted`: stable sort, processing the original order left to
right; elements comparing equal keep their original relative order. -/
def sortBy (lt : Task → Task → Bool) (l : List Task) : List Task :=
  l.foldl (fun acc x => insertBy lt x acc) []

/-- `Scheduler.running`: the registered tasks whose `is_running()` is
true, sorted by ascending importance with `compare_task`. -/
def runningOf (tasks : List Task) : List Task :=
  sortBy (fun a b => compare_task a b < 0) (tasks.filter (fun t => t.is_running))

/-- `Scheduler.runnable`: the registered tasks whose `is_runnable()` is
true. -/
def runnableOf (tasks : List Task) : List Task :=
  tasks.filter (fun t => t.is_runnable)

/-- `Scheduler.stopped`: the runnable tasks that are not running, sorted
by descending importance with `compare_task`. -/
def stoppedOf (tasks : List Task) : List Task :=
  sortBy (fun a b => compare_task a b > 0)
    ((runnableOf tasks).filter (fun t => ¬ memById t (runningOf tasks)))

/-- `Scheduler.adjustable`: the running tasks with `auto_adjust`. -/
def adjustableOf (tasks : List Task) : List Task :=
  (runningOf tasks).filter (fun t => t.auto_adjust)

/-- `Scheduler.__find_conflicting_power_keys`: for every keys value of a
running task, every running task with an equal keys list except the
first one is a victim.  The nested Python loops append the block
`[t for t in running if t.keys == keys][1:]` once per running task. -/
def find_conflicting_power_keys (running : List Task) : List Task :=
  (running.map Task.keys).foldl
    (fun acc keys => acc ++ ((running.filter (fun t => t.keys = keys)).drop 1)) []

/-- One pass of `Scheduler.__find_failing_criteria` over the running
tasks sorted by ascending priority: the first stoppable task whose
`meet_running_criteria(covered_by_production(task, minimize=adjustable),
power_used_by(task))` is false; `none` models an exception escaping a
window query. -/
def find_failing_criteria (w : Window) (adjustable : List Task) :
    List Task → Option (List Task)
  | [] => some []
  | task :: rest =>
    match w.covered_by_production task adjustable [] with
    | none => none
    | some rat =>
      match w.power_used_by task with
      | none => none
      | some pw =>
        if ¬ task.meet_running_criteria rat pw ∧ task.is_stoppable then some [task]
        else find_failing_criteria w adjustable rest

/-- `Scheduler.__find_dimishing_adjustable`: when several tasks run next
to adjustable tasks, the first stoppable non-adjustable running task
whose priority is below the highest adjustable priority. -/
def find_dimishing_adjustable (running adjustable : List Task) : List Task :=
  if running.length ≤ 1 ∨ adjustable.isEmpty then []
  else
    let min_priority := ((adjustable.map Task.priority).max?).getD 0
    match (running.filter (fun t => t.is_stoppable)).find?
        (fun t => ¬ t.auto_adjust ∧ t.priority < min_priority) with
    | some t => [t]
    | none => []

/-- `Scheduler.__find_lower_priority_tasks` over the stopped tasks: the
stoppable running challengers of the first stopped task that would meet
its running criteria with `available_for(task, ignore=challengers,
minimum=adjustable-minus-challengers)`; `none` models an exception
escaping `available_for`. -/
def find_lower_priority_tasks (w : Window) (running adjustable : List Task) :
    List Task → Option (List Task)
  | [] => some []
  | task :: rest =>
    let challengers := running.filter
      (fun c => compare_task task c > 0 ∧ c.is_stoppable)
    if challengers.isEmpty then find_lower_priority_tasks w running adjustable rest
    else
      let minimum := adjustable.filter (fun t => ¬ memById t challengers)
      match w.available_for task minimum challengers with
      | none => none
      | some rat =>
        if task.meet_running_criteria rat 0 then some challengers
        else find_lower_priority_tasks w running adjustable rest

/-- The `eligible` list of `Scheduler.__elect_task`: stopped tasks whose
keys list does not equal the keys list of any running task. -/
def eligibleOf (running stopped : List Task) : List Task :=
  stopped.filter (fun t => ¬ t.keys ∈ running.map Task.keys)

/-- The admission priority bar of `Scheduler.__elect_task`: the mean
priority of the running tasks, or `0` when none are running. -/
def meanPriorityQ (running : List Task) : ℚ :=
  if running.isEmpty then 0
  else ((running.map Task.priority).sum : ℚ) / (running.length : ℚ)

/-- The `for task in eligible` loop of `Scheduler.__elect_task`: the
first eligible task with `meet_running_criteria(available_for(task,
ignore=eligible, minimum=running))`, `is_runnable()`, and priority at
least the running mean or `auto_adjust`.  `some none` is loop
exhaustion, `none` models an exception escaping `available_for`. -/
def elect_taskAux (w : Window) (running eligible : List Task) :
    List Task → Option (Option Task)
  | [] => some none
  | task :: rest =>
    match w.available_for task running eligible with
    | none => none
    | some rat =>
      if task.meet_running_criteria rat 0 ∧ task.is_runnable ∧
         ((task.priority : ℚ) ≥ meanPriorityQ running ∨ task.auto_adjust) then
        some (some task)
      else elect_taskAux w running eligible rest

/-- `Scheduler.__elect_task`. -/
def elect_task (w : Window) (running stopped : List Task) : Option (Option Task) :=
  elect_taskAux w running (eligibleOf running stopped) (eligibleOf running stopped)

/-- The outcome of the eviction sweep of `Scheduler.schedule`: the
mutated running and stopped lists, the `stop()` calls issued in order,
and whether a `ValueError` escaped `self.running.remove(task)`. -/
structure SweepOut where
  running : List Task
  stopped : List Task
  stops : List Task
  error : Bool

/-- The victim loop of `Scheduler.schedule`: for every victim, issue
`task.stop()`, then `self.running.remove(task)` which raises
`ValueError` when the task is no longer in the running list, then append
the task to the stopped list. -/
def applyStops : List Task → List Task → List Task → List Task → SweepOut
  | [], running, stopped, stops => ⟨running, stopped, stops, false⟩
  | v :: rest, running, stopped, stops =>
    if memById v running then
      applyStops rest (removeById running v) (stopped ++ [v]) (stops ++ [v])
    else ⟨running, stopped, stops ++ [v], true⟩

/-- The eviction sweep of `Scheduler.schedule`: try the four ineligible
task finders in order (`if not tasks_to_stop: continue`) and process the
victims of the first finder that returns any, then break. -/
def evictionSweep (w : Window) (running stopped adjustable : List Task) :
    SweepOut :=
  match find_conflicting_power_keys running with
  | c1 :: crest => applyStops (c1 :: crest) running stopped []
  | [] =>
    match find_failing_criteria w adjustable
        (sortBy (fun a b => a.priority < b.priority) running) with
    | none => ⟨running, stopped, [], true⟩
    | some (f1 :: frest) => applyStops (f1 :: frest) running stopped []
    | some [] =>
      match find_dimishing_adjustable running adjustable with
      | d1 :: drest => applyStops (d1 :: drest) running stopped []
      | [] =>
        match find_lower_priority_tasks w running adjustable stopped with
        | none => ⟨running, stopped, [], true⟩
        | some (l1 :: lrest) => applyStops (l1 :: lrest) running stopped []
        | some [] => ⟨running, stopped, [], false⟩

/-- The observable outcome of one `Scheduler.schedule` cycle: the final
running and stopped lists, the `stop()` and `start()` calls issued in
order, and whether an exception escaped the cycle. -/
structure CycleResult where
  running : List Task
  stopped : List Task
  stops : List Task
  starts : List Task
  error : Bool

/-- The admission `while True` loop of `Scheduler.schedule`: elect a
task, issue `start()`, move it from the stopped list to the end of the
running list and repeat until no task is elected.  The fuel bounds the
iteration count; each successful iteration removes the elected task from
the stopped list, so `stopped.length + 1` fuel is never exhausted. -/
def admitLoop (w : Window) :
    ℕ → List Task → List Task → List Task → List Task → CycleResult
  | 0, running, stopped, stops, starts => ⟨running, stopped, stops, starts, true⟩
  | fuel + 1, running, stopped, stops, starts =>
    match elect_task w running stopped with
    | none => ⟨running, stopped, stops, starts, true⟩
    | some none => ⟨running, stopped, stops, starts, false⟩
    | some (some t) =>
      if memById t stopped then
        admitLoop w fuel (running ++ [t]) (removeById stopped t) stops (starts ++ [t])
      else ⟨running, stopped, stops, starts ++ [t], true⟩

/-- The tail of `Scheduler.schedule` after the eviction sweep: abort the
cycle when an exception escaped the sweep, otherwise run the admission
loop on the mutated running and stopped lists. -/
def afterSweep (w : Window) (sweep : SweepOut) : CycleResult :=
  if sweep.error then ⟨sweep.running, sweep.stopped, sweep.stops, [], true⟩
  else admitLoop w (sweep.stopped.length + 1) sweep.running sweep.stopped
    sweep.stops []

/-- One `Scheduler.schedule` cycle: abort when on pause, otherwise run
the eviction sweep when any task is running, then the admission loop. -/
def schedule (paused : Bool) (w : Window) (tasks : List Task) : CycleResult :=
  if paused then ⟨runningOf tasks, stoppedOf tasks, [], [], false⟩
  else
    afterSweep w
      (if (runningOf tasks).isEmpty then
        SweepOut.mk (runningOf tasks) (stoppedOf tasks) [] false
      else evictionSweep w (runningOf tasks) (stoppedOf tasks) (adjustableOf tasks))

/-! Spec-side definitions, written from the specification's wording, to
be compared with the code-side definitions above. -/

/-- The per-task `minimum` rewrite as the spec words it: subtract the
task's current usage from `net`, set the task's keys channels to
`task.power` split equally, and add `task.power` back to `net`. -/
def minimize_spec (t : Task) (r : Rec) : Option Rec :=
  match rget? r "net" with
  | none => none
  | some net =>
    if t.keys = [] then none
    else
      let r1 := rset r "net" (net - usage r t.keys)
      let r2 := t.keys.foldl (fun a k => rset a k (t.power / (t.keys.length : ℚ))) r1
      match rget? r2 "net" with
      | none => none
      | some net2 => some (rset r2 "net" (net2 + t.power))

/-- The per-task `ignore` rewrite as the spec words it: subtract the
task's usage from `net` and zero the task's keys channels. -/
def suppress_spec (t : Task) (r : Rec) : Option Rec :=
  match rget? r "net" with
  | none => none
  | some net =>
    if t.keys = [] then none
    else
      let r1 := rset r "net" (net - usage r t.keys)
      some (t.keys.foldl (fun a k => rset a k 0) r1)

/-- `available_for` as the spec words it: `max(0, -net2 / task.power)`
where `net2` is the `net` channel of the latest record after the
`minimum` rewrites followed by the `ignore` rewrites. -/
def available_for_spec (w : Window) (t : Task)
    (minimum : List Task) (ignore : List Task) : Option ℚ :=
  match w.latest with
  | none => none
  | some r0 =>
    match minimum.foldlM (fun r x => minimize_spec x r) r0 with
    | none => none
    | some r1 =>
      match ignore.foldlM (fun r x => suppress_spec x r) r1 with
      | none => none
      | some r2 =>
        match rget? r2 "net" with
        | none => none
        | some net =>
          if t.power = 0 then none
          else some (max 0 (-net / t.power))

/-- Modelled from the spec: `covered_by_production` as the spec words it,
computed over the longest tail suffix of the window during which the
task was drawing power, with each record of that suffix contributing
exactly once to the channel-wise accumulator, returning
`max(0, -(accumulated_net - task_usage) / task_usage)`. -/
def covered_by_production_spec (w : Window) (t : Task)
    (minimize0 ignore0 : List Task) : Option ℚ :=
  match w.latest with
  | none => none
  | some last =>
    if usage last t.keys = 0 then some 1
    else
      let tail := w.window.reverse.takeWhile (fun r => usage r t.keys ≠ 0)
      let init : Rec := last.map (fun kv => (kv.1, (0 : ℚ)))
      match tail.foldlM (fun a r => reducer_step minimize0 ignore0 a r) init with
      | none => none
      | some acc =>
        let total := usage acc t.keys
        match rget? acc "net" with
        | none => none
        | some net =>
          if total = 0 then none
          else some (max 0 (-(net - total) / total))

/-! Concrete fixtures used by the witnesses and counterexamples. -/

/-- The task `T` of the spec's S1 scenario: `power = 2.0`,
`keys = ["wh"]`. -/
def taskS1 : Task :=
  ⟨1, 2, 2, ["wh"], false, true, false, true, fun rat _ => decide (1 ≤ rat)⟩

/-- The latest record of the S1 scenario. -/
def recS1 : Rec := [("net", -3), ("solar", -5), ("wh", 0), ("other", 2)]

/-- The window of the S1 scenario. -/
def winS1 : Window := ⟨12, 1/10, [recS1]⟩

/-- An older record in which the task was drawing 1 kW. -/
def recC5a : Rec := [("net", -1), ("wh", 1)]

/-- A latest record in which the task is drawing 1 kW. -/
def recC5b : Rec := [("net", -4), ("wh", 1)]

/-- A two-record window in which the task was drawing power in both
records. -/
def winC5 : Window := ⟨12, 1/10, [recC5a, recC5b]⟩

/-- A running task on the `wh` channel that accepts any ratio. -/
def taskC5 : Task :=
  ⟨2, 2, 1, ["wh"], false, true, true, true, fun _ _ => true⟩

/-- A task whose `power` attribute is zero. -/
def taskP0 : Task :=
  ⟨3, 2, 0, ["wh"], false, true, false, true, fun _ _ => true⟩

/-- An empty sliding window with the default settings
(`window_size = 12`, `ignore_power_threshold = 0.1`). -/
def win0 : Window := ⟨12, 1/10, []⟩

/-- A record with a small positive value, a large value and a small
negative value. -/
def recC8 : Rec := [("a", 1/20), ("b", 5), ("c", -1/20)]

/-- A running task on channel `a` accepting ratios of at least 1. -/
def tW1 : Task := ⟨21, 2, 1, ["a"], false, true, true, true, fun rat _ => decide (1 ≤ rat)⟩

/-- A record where channel `a` draws 1 kW against a surplus. -/
def recW : Rec := [("net", -3), ("a", 1)]

/-- A one-record window for the single running task scenario. -/
def winW : Window := ⟨12, 1/10, [recW]⟩

/-- A running task whose keys overlap (but do not equal) those of
`tOV2`. -/
def tOV1 : Task := ⟨11, 2, 1, ["a", "b"], false, true, true, true, fun _ _ => true⟩

/-- A running task whose keys overlap (but do not equal) those of
`tOV1`. -/
def tOV2 : Task := ⟨12, 2, 1, ["b", "c"], false, true, true, true, fun _ _ => true⟩

/-- A record with no power drawn on any channel. -/
def recOV : Rec := [("net", 0), ("a", 0), ("b", 0), ("c", 0)]

/-- A one-record window for the overlapping-keys scenario. -/
def winOV : Window := ⟨12, 1/10, [recOV]⟩

/-- A running stoppable task on channel `k`. -/
def tCF1 : Task := ⟨31, 2, 1, ["k"], false, true, true, true, fun _ _ => true⟩

/-- A running task with the same keys list as `tCF1` that is not
stoppable. -/
def tCF2 : Task := ⟨32, 2, 1, ["k"], false, true, true, false, fun _ _ => true⟩

/-- A running stoppable task that rejects every ratio. -/
def tFC : Task := ⟨41, 2, 1, ["a"], false, true, true, true, fun _ _ => false⟩

/-- A stopped runnable task accepting ratios of at least 1. -/
def tST : Task := ⟨51, 1, 2, ["a"], false, true, false, true, fun rat _ => decide (1 ≤ rat)⟩

/-- A record with 5 kW of surplus and no draw on channel `a`. -/
def recST : Rec := [("net", -5), ("a", 0)]

/-- A one-record window for the admission scenario. -/
def winST : Window := ⟨12, 1/10, [recST]⟩

/-- The conflict victim blocks of `__find_conflicting_power_keys`, one
block (`[t for t in running if t.keys == keys][1:]`) per entry of the
running keys list. -/
def conflictBlocks (running : List Task) : List (List Channel) → List Task
  | [] => []
  | k :: ks =>
    (running.filter (fun t => t.keys = k)).drop 1 ++ conflictBlocks running ks

/-! Supporting lemmas for the window queries. -/

lemma minimize_eq_spec (t : Task) (r : Rec) : minimize t r = minimize_spec t r := by
  unfold minimize minimize_spec rmodify set_usage
  cases h : rget? r "net" with
  | none => rfl
  | some net =>
    by_cases hk : t.keys = [] <;> simp [hk]

lemma suppress_eq_spec (t : Task) (r : Rec) : suppress t r = suppress_spec t r := by
  unfold suppress suppress_spec rmodify set_usage
  cases h : rget? r "net" with
  | none => rfl
  | some net =>
    by_cases hk : t.keys = [] <;> simp [hk, zero_div]

lemma usage_foldl_acc (r : Rec) : ∀ (keys : List Channel) (a : ℚ),
    keys.foldl (fun cur k => match rget? r k with
      | some v => cur + v
      | none => cur) a = a + (keys.map (fun k => (rget? r k).getD 0)).sum := by
  intro keys
  induction keys with
  | nil => intro a; simp
  | cons k ks ih =>
    intro a
    simp only [List.foldl_cons, List.map_cons, List.sum_cons]
    cases h : rget? r k with
    | none => rw [ih]; simp [h]
    | some v => rw [ih]; simp [h]; ring

lemma usage_eq_sum (r : Rec) (keys : List Channel) :
    usage r keys = (keys.map (fun k => (rget? r k).getD 0)).sum := by
  unfold usage
  rw [usage_foldl_acc]
  simp

lemma update_latest (w : Window) (r : Rec) (h : 1 ≤ w.size) :
    (w.update r).latest = some (coerceRecord w.ignore_power_threshold r) := by
  unfold Window.update Window.latest
  simp only [List.length_append, List.length_cons, List.length_nil]
  have hle : w.window.length + (0 + 1) - w.size ≤ w.window.length := by omega
  rw [List.drop_append_of_le_length hle]
  simp

lemma rget?_coerceRecord (θ : ℚ) (r : Rec) (k : Channel) :
    rget? (coerceRecord θ r) k = (rget? r k).map (coerceEntry θ) := by
  induction r with
  | nil => rfl
  | cons kv rest ih =>
    unfold coerceRecord at ih ⊢
    simp only [List.map_cons]
    unfold rget?
    by_cases h : kv.1 = k <;> simp [h, ih]

/-! The claims about the window queries. -/

/-- C4: for every window, task and rewrite lists, `available_for` equals
the spec's description of it: `max(0, -net2 / task.power)` where `net2`
is the `net` channel of the latest record after the `minimum` rewrites
(usage replaced by `power` split equally over the keys, `net` adjusted)
followed by the `ignore` rewrites (usage removed, keys zeroed); in the
spec's S1 configuration `available_for(T, ignore=[T], minimum=[])`
returns `1.5`. -/
theorem thm_C4 :
    (∀ (w : Window) (t : Task) (minimum ignore : List Task),
      w.available_for t minimum ignore = available_for_spec w t minimum ignore) ∧
    winS1.available_for taskS1 [] [taskS1] = some (3/2) := by
  constructor
  · intro w t minimum ignore
    unfold Window.available_for available_for_spec
    simp only [minimize_eq_spec, suppress_eq_spec]
  · norm_num +decide [Window.available_for, Window.latest, winS1, recS1, taskS1,
      suppress, rmodify, rget?, rset, usage, set_usage]

/-- C5: the claim that each record of the drawing tail suffix
contributes exactly once fails on the code: `covered_by_production`
seeds its reduction list with a copy of the latest record and then a
reversed-window walk that includes the latest record again, so the
latest record is accumulated twice.  On a two-record window where the
task draws 1 kW in both records the code returns `4` while the
exactly-once accumulation of the spec returns `3.5`. -/
theorem thm_C5 :
    winC5.covered_by_production taskC5 [] [] = some 4 ∧
    covered_by_production_spec winC5 taskC5 [] [] = some (7/2) ∧
    (4 : ℚ) ≠ 7/2 := by
  refine ⟨?_, ?_, by norm_num⟩
  · norm_num +decide [Window.covered_by_production, Window.latest, winC5, recC5a,
      recC5b, taskC5, reducer_step, rget?, rset, usage]
  · norm_num +decide [covered_by_production_spec, Window.latest, winC5, recC5a,
      recC5b, taskC5, reducer_step, rget?, rset, usage]

/-- C6 (amended): `covered_by_production` indeed returns `1` whenever the
task usage in the latest record is zero, but `available_for` has no such
guard: with `task.power = 0` it raises `ZeroDivisionError` (modelled as
`none`) instead of returning `1.0`. -/
theorem thm_C6 :
    (∀ (w : Window) (t : Task) (m i : List Task) (last : Rec),
      w.latest = some last → usage last t.keys = 0 →
      w.covered_by_production t m i = some 1) ∧
    (∀ (w : Window) (t : Task) (m i : List Task),
      t.power = 0 → w.available_for t m i = none) := by
  constructor
  · intro w t m i last hl hz
    unfold Window.covered_by_production
    rw [hl]
    simp [hz]
  · intro w t m i hp
    unfold Window.available_for
    split
    · rfl
    · split
      · rfl
      · split
        · rfl
        · split
          · rfl
          · simp [hp]

/-- Witness for C6 at concrete inputs: the task with `power = 0` and no
usage in the S1 record. -/
theorem wit_C6 :
    winS1.covered_by_production taskP0 [] [] = some 1 ∧
    winS1.available_for taskP0 [] [] = none :=
  ⟨thm_C6.1 winS1 taskP0 [] [] recS1 rfl
    (by norm_num +decide [usage, rget?, recS1, taskP0]),
   thm_C6.2 winS1 taskP0 [] [] rfl⟩

/-- Counterexample for C6 as stated: with `task.power = 0`,
`available_for` does not return `1.0`; it fails. -/
theorem cex_C6 :
    taskP0.power = 0 ∧ winS1.available_for taskP0 [] [] ≠ some 1 := by
  refine ⟨rfl, ?_⟩
  norm_num +decide [Window.available_for, Window.latest, winS1, recS1, taskP0,
    rget?]

/-- C7 (amended): `power_used_by` equals the sum of the `task.keys`
channel values of the most recent record (absent keys contributing
nothing); it is not always nonnegative. -/
theorem thm_C7 :
    ∀ (w : Window) (t : Task) (last : Rec), w.latest = some last →
      w.power_used_by t =
        some ((t.keys.map (fun k => (rget? last k).getD 0)).sum) := by
  intro w t last hl
  unfold Window.power_used_by
  rw [hl]
  show some (usage last t.keys) = _
  rw [usage_eq_sum]

/-- Witness for C7: the sum formula evaluated on an ingested record. -/
theorem wit_C7 :
    (win0.update [("wh", -1)]).power_used_by taskC5 =
      some ((taskC5.keys.map (fun k => (rget? [("wh", -1)] k).getD 0)).sum) :=
  thm_C7 (win0.update [("wh", -1)]) taskC5 [("wh", -1)]
    (by norm_num +decide [Window.update, Window.latest, coerceRecord, coerceEntry,
      win0])

/-- Counterexample for C7 as stated: a record with a negative value on
the task key channel makes `power_used_by` negative. -/
theorem cex_C7 :
    (win0.update [("wh", -1)]).power_used_by taskC5 = some (-1) ∧
    ¬ (0 : ℚ) ≤ (-1 : ℚ) := by
  refine ⟨?_, by norm_num⟩
  norm_num +decide [Window.update, Window.latest, Window.power_used_by,
    coerceRecord, coerceEntry, win0, taskC5, usage, rget?]

/-- C8 (amended): `update` stores the record with every channel value
`v` such that `0 < v < ignore_power_threshold` coerced to `0`; values
that are negative, zero, or at least the threshold are kept unchanged,
so small negative values are not squashed.  A subsequent `power_used_by`
reads the task keys over that coerced record. -/
theorem thm_C8 :
    ∀ (w : Window) (r : Rec), 1 ≤ w.size →
      (w.update r).latest = some (coerceRecord w.ignore_power_threshold r) ∧
      (∀ t : Task, (w.update r).power_used_by t =
        some (usage (coerceRecord w.ignore_power_threshold r) t.keys)) ∧
      (∀ k, rget? (coerceRecord w.ignore_power_threshold r) k =
        (rget? r k).map (coerceEntry w.ignore_power_threshold)) := by
  intro w r h
  have hl := update_latest w r h
  refine ⟨hl, ?_, ?_⟩
  · intro t
    unfold Window.power_used_by
    rw [hl]
  · intro k
    exact rget?_coerceRecord _ r k

/-- Witness for C8: the record with a small positive, a large and a
small negative value, ingested by the default window. -/
theorem wit_C8 :
    (win0.update recC8).latest = some (coerceRecord win0.ignore_power_threshold recC8) ∧
    (∀ t : Task, (win0.update recC8).power_used_by t =
      some (usage (coerceRecord win0.ignore_power_threshold recC8) t.keys)) ∧
    (∀ k, rget? (coerceRecord win0.ignore_power_threshold recC8) k =
      (rget? recC8 k).map (coerceEntry win0.ignore_power_threshold)) :=
  thm_C8 win0 recC8 (by norm_num [win0])

/-- Counterexample for C8 as stated: a channel value whose absolute
value lies strictly in `(0, threshold)` but is negative is stored
unchanged, not coerced to `0`. -/
theorem cex_C8 :
    (0 : ℚ) < |(-1/20 : ℚ)| ∧
    |(-1/20 : ℚ)| < win0.ignore_power_threshold ∧
    (win0.update [("x", -1/20)]).latest = some [("x", -1/20)] ∧
    (-1/20 : ℚ) ≠ 0 := by
  refine ⟨by norm_num, by rw [abs_lt]; constructor <;> norm_num [win0], ?_, by norm_num⟩
  norm_num +decide [Window.update, Window.latest, coerceRecord, coerceEntry, win0]

/-- C9 (amended): `update` does not store a defensive copy; it coerces
the caller's record in place and appends that same record, so the
stored latest record is exactly the caller-visible mutated record. -/
theorem thm_C9 :
    ∀ (w : Window) (r : Rec), 1 ≤ w.size →
      (w.update r).latest = some (update_record_after w.ignore_power_threshold r) := by
  intro w r h
  unfold update_record_after
  exact update_latest w r h

/-- Witness for C9 at a concrete record with a sub-threshold value. -/
theorem wit_C9 :
    (win0.update [("x", 1/20)]).latest =
      some (update_record_after win0.ignore_power_threshold [("x", 1/20)]) :=
  thm_C9 win0 [("x", 1/20)] (by norm_num [win0])

/-- Counterexample for C9 as stated: the caller's record is not left
unchanged by `update`; a sub-threshold positive value is zeroed in the
caller's own record. -/
theorem cex_C9 :
    update_record_after (1/10) [("x", 1/20)] ≠ [("x", 1/20)] := by
  norm_num +decide [update_record_after, coerceRecord, coerceEntry]

/-- C10: every window query reads the most recent record
unconditionally, so on an empty window (for instance right after
`clear()`) `power_used_by`, `available_for` and `covered_by_production`
all raise (`none`) instead of returning a ratio. -/
theorem thm_C10 :
    ∀ (w : Window) (t : Task) (m i : List Task), w.window = [] →
      w.power_used_by t = none ∧ w.available_for t m i = none ∧
      w.covered_by_production t m i = none := by
  intro w t m i h
  have hl : w.latest = none := by
    unfold Window.latest
    rw [h]
    rfl
  refine ⟨?_, ?_, ?_⟩
  · unfold Window.power_used_by
    rw [hl]
  · unfold Window.available_for
    rw [hl]
  · unfold Window.covered_by_production
    rw [hl]

/-- Witness for C10: the three queries on a just-cleared window. -/
theorem wit_C10 :
    (winS1.clear).power_used_by taskC5 = none ∧
    (winS1.clear).available_for taskC5 [] [] = none ∧
    (winS1.clear).covered_by_production taskC5 [] [] = none :=
  thm_C10 winS1.clear taskC5 [] [] rfl

/-! Supporting lemmas for the scheduler cycle. -/

lemma applyStops_stops_mem : ∀ (victims running stopped stops : List Task) (t : Task),
    t ∈ (applyStops victims running stopped stops).stops → t ∈ stops ∨ t ∈ victims := by
  intro victims
  induction victims with
  | nil =>
    intro running stopped stops t h
    exact Or.inl h
  | cons v rest ih =>
    intro running stopped stops t h
    unfold applyStops at h
    split at h
    · rcases ih _ _ _ t h with h1 | h1
      · rcases List.mem_append.1 h1 with h2 | h2
        · exact Or.inl h2
        · rw [List.mem_singleton] at h2
          exact Or.inr (h2 ▸ List.mem_cons_self v rest)
      · exact Or.inr (List.mem_cons_of_mem v h1)
    · rcases List.mem_append.1 h with h2 | h2
      · exact Or.inl h2
      · rw [List.mem_singleton] at h2
        exact Or.inr (h2 ▸ List.mem_cons_self v rest)

lemma admitLoop_stops_eq (w : Window) : ∀ (fuel : ℕ)
    (running stopped stops starts : List Task),
    (admitLoop w fuel running stopped stops starts).stops = stops := by
  intro fuel
  induction fuel with
  | zero => intro r s st sa; rfl
  | succ n ih =>
    intro r s st sa
    unfold admitLoop
    split
    · rfl
    · rfl
    · split
      · exact ih _ _ _ _
      · rfl

lemma elect_taskAux_gates (w : Window) (running eligible : List Task) :
    ∀ (l : List Task) (t : Task), elect_taskAux w running eligible l = some (some t) →
      t ∈ l ∧ t.is_runnable = true ∧
      ∃ rat, w.available_for t running eligible = some rat ∧
        t.meet_running_criteria rat 0 = true ∧
        ((t.priority : ℚ) ≥ meanPriorityQ running ∨ t.auto_adjust = true) := by
  intro l
  induction l with
  | nil =>
    intro t h
    unfold elect_taskAux at h
    injection h with h'
    cases h'
  | cons task rest ih =>
    intro t h
    unfold elect_taskAux at h
    split at h
    · cases h
    · rename_i rat hr
      split at h
      · rename_i hc
        simp only [Option.some.injEq] at h
        subst h
        exact ⟨List.mem_cons_self task rest, hc.2.1, rat, hr, hc.1, hc.2.2⟩
      · have := ih t h
        exact ⟨List.mem_cons_of_mem task this.1, this.2⟩

lemma elect_task_gates (w : Window) (running stopped : List Task) (t : Task)
    (h : elect_task w running stopped = some (some t)) :
    t ∈ eligibleOf running stopped ∧ t.is_runnable = true ∧
    ∃ rat, w.available_for t running (eligibleOf running stopped) = some rat ∧
      t.meet_running_criteria rat 0 = true ∧
      ((t.priority : ℚ) ≥ meanPriorityQ running ∨ t.auto_adjust = true) :=
  elect_taskAux_gates w running (eligibleOf running stopped)
    (eligibleOf running stopped) t h

lemma admitLoop_starts_runnable (w : Window) : ∀ (fuel : ℕ)
    (running stopped stops starts : List Task),
    (∀ t ∈ starts, t.is_runnable = true) →
    ∀ t ∈ (admitLoop w fuel running stopped stops starts).starts,
      t.is_runnable = true := by
  intro fuel
  induction fuel with
  | zero => intro r s st sa hs t ht; exact hs t ht
  | succ n ih =>
    intro r s st sa hs t ht
    unfold admitLoop at ht
    split at ht
    · exact hs t ht
    · exact hs t ht
    · rename_i u heq
      have hu := (elect_task_gates w r s u heq).2.1
      split at ht
      · refine ih _ _ _ _ ?_ t ht
        intro x hx
        rcases List.mem_append.1 hx with h1 | h1
        · exact hs x h1
        · rw [List.mem_singleton] at h1
          subst h1
          exact hu
      · rcases List.mem_append.1 ht with h1 | h1
        · exact hs t h1
        · rw [List.mem_singleton] at h1
          subst h1
          exact hu

lemma find_failing_criteria_stoppable (w : Window) (adjustable : List Task) :
    ∀ (l victims : List Task), find_failing_criteria w adjustable l = some victims →
      ∀ t ∈ victims, t.is_stoppable = true := by
  intro l
  induction l with
  | nil =>
    intro victims h t ht
    unfold find_failing_criteria at h
    injection h with h'
    subst h'
    cases ht
  | cons task rest ih =>
    intro victims h t ht
    unfold find_failing_criteria at h
    split at h
    · cases h
    · split at h
      · cases h
      · split at h
        · rename_i hc
          injection h with h'
          subst h'
          rw [List.mem_singleton] at ht
          subst ht
          exact hc.2
        · exact ih victims h t ht

lemma find_dimishing_stoppable (running adjustable : List Task) :
    ∀ t ∈ find_dimishing_adjustable running adjustable, t.is_stoppable = true := by
  intro t ht
  simp only [find_dimishing_adjustable] at ht
  split at ht
  · cases ht
  · split at ht
    · rename_i u hu
      rw [List.mem_singleton] at ht
      subst ht
      have := List.mem_filter.1 (List.mem_of_find?_eq_some hu)
      exact this.2
    · cases ht

lemma find_lower_stoppable (w : Window) (running adjustable : List Task) :
    ∀ (l victims : List Task),
      find_lower_priority_tasks w running adjustable l = some victims →
      ∀ t ∈ victims, t.is_stoppable = true := by
  intro l
  induction l with
  | nil =>
    intro victims h t ht
    unfold find_lower_priority_tasks at h
    injection h with h'
    subst h'
    cases ht
  | cons task rest ih =>
    intro victims h t ht
    simp only [find_lower_priority_tasks] at h
    split at h
    · exact ih victims h t ht
    · split at h
      · cases h
      · split at h
        · injection h with h'
          subst h'
          have := (List.mem_filter.1 ht).2
          simp only [decide_eq_true_eq] at this
          exact this.2
        · exact ih victims h t ht

lemma evictionSweep_stops_mem (w : Window) (running stopped adjustable : List Task) :
    ∀ t ∈ (evictionSweep w running stopped adjustable).stops,
      t ∈ find_conflicting_power_keys running ∨ t.is_stoppable = true := by
  intro t ht
  unfold evictionSweep at ht
  split at ht
  · rename_i c1 crest hc
    rcases applyStops_stops_mem _ _ _ _ t ht with h | h
    · cases h
    · rw [hc]
      exact Or.inl h
  · split at ht
    · simp at ht
    · rename_i f1 frest hf
      rcases applyStops_stops_mem _ _ _ _ t ht with h | h
      · cases h
      · exact Or.inr (find_failing_criteria_stoppable w adjustable _ _ hf t h)
    · split at ht
      · rename_i d1 drest hd
        rcases applyStops_stops_mem _ _ _ _ t ht with h | h
        · cases h
        · exact Or.inr (find_dimishing_stoppable running adjustable t (hd ▸ h))
      · split at ht
        · simp at ht
        · rename_i l1 lrest hl
          rcases applyStops_stops_mem _ _ _ _ t ht with h | h
          · cases h
          · exact Or.inr (find_lower_stoppable w running adjustable _ _ hl t h)
        · simp at ht

lemma afterSweep_stops (w : Window) (S : SweepOut) :
    (afterSweep w S).stops = S.stops := by
  unfold afterSweep
  split
  · rfl
  · exact admitLoop_stops_eq w _ _ _ _ _

lemma afterSweep_starts_runnable (w : Window) (S : SweepOut) :
    ∀ t ∈ (afterSweep w S).starts, t.is_runnable = true := by
  intro t ht
  unfold afterSweep at ht
  split at ht
  · simp at ht
  · exact admitLoop_starts_runnable w _ _ _ _ _ (by intro x hx; simp at hx) t ht

/-- C2 (amended): during a `schedule()` cycle, every task that is sent
`stop()` either declared itself stoppable or is a victim of the
keyed-resource-conflict rule; that rule alone stops its victims without
consulting `is_stoppable()`, so the claim's blanket statement fails. -/
theorem thm_C2 : ∀ (paused : Bool) (w : Window) (tasks : List Task) (t : Task),
    t ∈ (schedule paused w tasks).stops →
    t.is_stoppable = true ∨ t ∈ find_conflicting_power_keys (runningOf tasks) := by
  intro paused w tasks t ht
  unfold schedule at ht
  split at ht
  · simp at ht
  · rw [afterSweep_stops] at ht
    by_cases hre : (runningOf tasks).isEmpty = true
    · rw [if_pos hre] at ht
      simp at ht
    · rw [if_neg hre] at ht
      exact (evictionSweep_stops_mem w _ _ _ t ht).symm

/-- C3: the scheduler only starts tasks elected by `__elect_task`, and
such a task satisfied all three admission gates at the moment of the
decision: `meet_running_criteria(ratio)` with
`ratio = available_for(task, ignore=eligible, minimum=running)` on the
latest record, `is_runnable()`, and priority at least the mean running
priority (0 when nothing runs) or `auto_adjust`; in particular `start()`
is never issued to a task whose `is_runnable()` returned false. -/
theorem thm_C3 :
    (∀ (paused : Bool) (w : Window) (tasks : List Task) (t : Task),
      t ∈ (schedule paused w tasks).starts → t.is_runnable = true) ∧
    (∀ (w : Window) (running stopped : List Task) (t : Task),
      elect_task w running stopped = some (some t) →
      t.is_runnable = true ∧
      ∃ rat, w.available_for t running (eligibleOf running stopped) = some rat ∧
        t.meet_running_criteria rat 0 = true ∧
        ((t.priority : ℚ) ≥ meanPriorityQ running ∨ t.auto_adjust = true)) := by
  constructor
  · intro paused w tasks t ht
    unfold schedule at ht
    split at ht
    · simp at ht
    · exact afterSweep_starts_runnable w _ t ht
  · intro w running stopped t h
    have := elect_task_gates w running stopped t h
    exact ⟨this.2.1, this.2.2⟩

/-! Supporting lemmas for the keyed-resource-conflict analysis. -/

lemma conflictBlocks_acc (running : List Task) :
    ∀ (ks : List (List Channel)) (acc : List Task),
    ks.foldl (fun a k => a ++ ((running.filter (fun t => t.keys = k)).drop 1)) acc =
      acc ++ conflictBlocks running ks := by
  intro ks
  induction ks with
  | nil => intro acc; simp [conflictBlocks]
  | cons k rest ih =>
    intro acc
    simp only [List.foldl_cons, conflictBlocks]
    rw [ih, List.append_assoc]

lemma find_conflicting_eq (running : List Task) :
    find_conflicting_power_keys running =
      conflictBlocks running (running.map Task.keys) := by
  unfold find_conflicting_power_keys
  rw [conflictBlocks_acc]
  simp

lemma conflictBlocks_append (running : List Task) (ks1 ks2 : List (List Channel)) :
    conflictBlocks running (ks1 ++ ks2) =
      conflictBlocks running ks1 ++ conflictBlocks running ks2 := by
  induction ks1 with
  | nil => simp [conflictBlocks]
  | cons k rest ih => simp [conflictBlocks, ih]

lemma conflictBlocks_eq_nil (running : List Task) :
    ∀ (ks : List (List Channel)),
    conflictBlocks running ks = [] ↔
      ∀ k ∈ ks, (running.filter (fun t => t.keys = k)).drop 1 = [] := by
  intro ks
  induction ks with
  | nil => simp [conflictBlocks]
  | cons k rest ih =>
    simp only [conflictBlocks, List.append_eq_nil, ih, List.forall_mem_cons]

lemma conflicts_nil_pairwise : ∀ (running : List Task),
    find_conflicting_power_keys running = [] →
    running.Pairwise (fun a b => a.keys ≠ b.keys) := by
  intro running
  induction running with
  | nil => intro _; exact List.Pairwise.nil
  | cons t rest ih =>
    intro h
    rw [find_conflicting_eq, conflictBlocks_eq_nil] at h
    rw [List.pairwise_cons]
    constructor
    · intro b hb
      have h1 := h t.keys (by simp)
      rw [List.filter_cons, if_pos (by simp)] at h1
      simp only [List.drop_succ_cons, List.drop_zero] at h1
      have h2 := List.filter_eq_nil_iff.1 h1 b hb
      simp only [decide_eq_true_eq] at h2
      intro he
      exact h2 he.symm
    · refine ih ?_
      rw [find_conflicting_eq, conflictBlocks_eq_nil]
      intro k hk
      have h1 := h k (by simp [hk])
      rw [List.filter_cons] at h1
      by_cases hp : t.keys = k
      · rw [if_pos (by simp [hp])] at h1
        simp only [List.drop_succ_cons, List.drop_zero] at h1
        rw [h1]
        simp
      · rw [if_neg (by simp [hp])] at h1
        exact h1

/-! Supporting lemmas for the sorted task views and the victim loop. -/

lemma insertBy_perm (lt : Task → Task → Bool) (a : Task) :
    ∀ (l : List Task), (insertBy lt a l).Perm (a :: l) := by
  intro l
  induction l with
  | nil => exact List.Perm.refl _
  | cons b rest ih =>
    unfold insertBy
    split
    · exact List.Perm.refl _
    · exact (List.Perm.cons b ih).trans (List.Perm.swap a b rest)

lemma sortBy_perm (lt : Task → Task → Bool) (l : List Task) :
    (sortBy lt l).Perm l := by
  suffices h : ∀ (l acc : List Task),
      (l.foldl (fun acc x => insertBy lt x acc) acc).Perm (l ++ acc) by
    simpa using h l []
  intro l
  induction l with
  | nil => intro acc; simp
  | cons x rest ih =>
    intro acc
    simp only [List.foldl_cons, List.cons_append]
    refine (ih (insertBy lt x acc)).trans ?_
    refine (List.Perm.append_left rest (insertBy_perm lt x acc)).trans ?_
    exact List.perm_middle

lemma memById_iff (t : Task) (l : List Task) :
    memById t l = true ↔ t.id ∈ l.map Task.id := by
  unfold memById
  rw [List.any_eq_true]
  constructor
  · rintro ⟨x, hx, he⟩
    simp only [decide_eq_true_eq] at he
    exact he ▸ List.mem_map_of_mem Task.id hx
  · intro h
    rcases List.mem_map.1 h with ⟨x, hx, he⟩
    exact ⟨x, hx, by simp [he]⟩

lemma removeById_sublist (v : Task) : ∀ (l : List Task),
    (removeById l v).Sublist l := by
  intro l
  induction l with
  | nil => exact List.Sublist.refl _
  | cons x rest ih =>
    unfold removeById
    split
    · exact List.sublist_cons_self x rest
    · exact ih.cons₂ x

lemma removeById_ids_sublist (v : Task) (l : List Task) :
    ((removeById l v).map Task.id).Sublist (l.map Task.id) :=
  (removeById_sublist v l).map Task.id

lemma removeById_id_not_mem (v : Task) : ∀ (l : List Task),
    (l.map Task.id).Nodup → v.id ∉ (removeById l v).map Task.id := by
  intro l
  induction l with
  | nil => intro _ h; cases h
  | cons x rest ih =>
    intro hn h
    rw [List.map_cons, List.nodup_cons] at hn
    unfold removeById at h
    split at h
    · rename_i he
      exact hn.1 (he ▸ h)
    · rename_i he
      rw [List.map_cons, List.mem_cons] at h
      rcases h with h | h
      · exact he h.symm
      · exact ih hn.2 h

lemma applyStops_ok_ids : ∀ (victims running stopped stops : List Task),
    (applyStops victims running stopped stops).error = false →
    (running.map Task.id).Nodup →
    (victims.map Task.id).Nodup ∧ ∀ v ∈ victims, v.id ∈ running.map Task.id := by
  intro victims
  induction victims with
  | nil =>
    intro running stopped stops _ _
    exact ⟨List.nodup_nil, by intro v hv; cases hv⟩
  | cons v rest ih =>
    intro running stopped stops h hn
    unfold applyStops at h
    split at h
    · rename_i hm
      have hrn : ((removeById running v).map Task.id).Nodup :=
        (removeById_ids_sublist v running).nodup hn
      obtain ⟨h1, h2⟩ := ih _ _ _ h hrn
      have hvmem : v.id ∈ running.map Task.id := (memById_iff v running).1 hm
      have hvnot : v.id ∉ (removeById running v).map Task.id :=
        removeById_id_not_mem v running hn
      constructor
      · rw [List.map_cons]
        refine List.nodup_cons.2 ⟨?_, h1⟩
        intro hvin
        rcases List.mem_map.1 hvin with ⟨x, hx, he⟩
        exact hvnot (he ▸ h2 x hx)
      · intro x hx
        rcases List.mem_cons.1 hx with h3 | h3
        · exact h3 ▸ hvmem
        · exact (removeById_ids_sublist v running).subset (h2 x h3)
    · simp at h

lemma applyStops_running_sublist : ∀ (victims running stopped stops : List Task),
    ((applyStops victims running stopped stops).running).Sublist running := by
  intro victims
  induction victims with
  | nil => intro r s st; exact List.Sublist.refl _
  | cons v rest ih =>
    intro r s st
    unfold applyStops
    split
    · exact (ih _ _ _).trans (removeById_sublist v r)
    · exact List.Sublist.refl _

lemma filter_two_split (p : Task → Bool) : ∀ (l : List Task),
    2 ≤ (l.filter p).length →
    ∃ xs a ys b zs, l = xs ++ a :: (ys ++ b :: zs) ∧ p a = true ∧ p b = true := by
  intro l
  induction l with
  | nil => intro h; simp at h
  | cons x rest ih =>
    intro h
    rw [List.filter_cons] at h
    by_cases hp : p x = true
    · rw [if_pos hp] at h
      rw [List.length_cons] at h
      have h2 : rest.filter p ≠ [] := by
        intro he
        rw [he] at h
        simp at h
      obtain ⟨b, hb⟩ := List.exists_mem_of_ne_nil _ h2
      have hb2 := List.mem_filter.1 hb
      obtain ⟨ys, zs, hsp⟩ := List.append_of_mem hb2.1
      exact ⟨[], x, ys, b, zs, by simp [hsp], hp, hb2.2⟩
    · rw [if_neg hp] at h
      obtain ⟨xs, a, ys, b, zs, hsp, ha, hb⟩ := ih h
      exact ⟨x :: xs, a, ys, b, zs, by simp [hsp], ha, hb⟩

lemma conflicts_ne_nil_not_nodup (running : List Task) :
    find_conflicting_power_keys running ≠ [] →
    ¬ ((find_conflicting_power_keys running).map Task.id).Nodup := by
  intro hne hnd
  rw [find_conflicting_eq] at hne hnd
  have hex : ∃ k ∈ running.map Task.keys,
      (running.filter (fun t => t.keys = k)).drop 1 ≠ [] := by
    by_contra hall
    push_neg at hall
    exact hne ((conflictBlocks_eq_nil running (running.map Task.keys)).2 hall)
  obtain ⟨k, -, hblock⟩ := hex
  have hlen : 2 ≤ (running.filter (fun t => t.keys = k)).length := by
    rcases Nat.lt_or_ge (running.filter (fun t => t.keys = k)).length 2 with h | h
    · exact absurd (List.drop_eq_nil_iff.2 (by omega)) hblock
    · exact h
  obtain ⟨xs, a, ys, b, zs, hsp, ha, hb⟩ :=
    filter_two_split (fun t => t.keys = k) running hlen
  simp only [decide_eq_true_eq] at ha hb
  obtain ⟨x, hx⟩ := List.exists_mem_of_ne_nil _ hblock
  have hx1 : [x.id].Sublist
      (((running.filter (fun t => t.keys = k)).drop 1).map Task.id) :=
    List.singleton_sublist.2 (List.mem_map_of_mem Task.id hx)
  have hks : running.map Task.keys =
      (xs.map Task.keys ++ [k]) ++
        ((ys.map Task.keys ++ [k]) ++ zs.map Task.keys) := by
    rw [hsp]
    simp [ha, hb]
  have hbl : conflictBlocks running (running.map Task.keys) =
      conflictBlocks running (xs.map Task.keys) ++
        (((running.filter (fun t => t.keys = k)).drop 1) ++
          (conflictBlocks running (ys.map Task.keys) ++
            (((running.filter (fun t => t.keys = k)).drop 1) ++
              conflictBlocks running (zs.map Task.keys)))) := by
    rw [hks, conflictBlocks_append, conflictBlocks_append, conflictBlocks_append]
    simp [conflictBlocks, conflictBlocks_append]
  have hsub : ([x.id] ++ [x.id]).Sublist
      ((conflictBlocks running (running.map Task.keys)).map Task.id) := by
    rw [hbl]
    simp only [List.map_append]
    refine List.Sublist.trans ?_ (List.sublist_append_right _ _)
    refine List.Sublist.append hx1 ?_
    refine List.Sublist.trans ?_ (List.sublist_append_right _ _)
    exact hx1.trans (List.sublist_append_left _ _)
  exact (List.nodup_iff_sublist.1 hnd x.id) hsub

lemma applyStops_conflicts_error (running stopped : List Task)
    (hn : (running.map Task.id).Nodup)
    (hne : find_conflicting_power_keys running ≠ []) :
    (applyStops (find_conflicting_power_keys running) running stopped []).error
      = true := by
  cases hval :
      (applyStops (find_conflicting_power_keys running) running stopped []).error with
  | true => rfl
  | false =>
    obtain ⟨hnd, -⟩ := applyStops_ok_ids _ _ _ _ hval hn
    exact absurd hnd (conflicts_ne_nil_not_nodup running hne)

lemma eligibleOf_keys (running stopped : List Task) (t : Task)
    (h : t ∈ eligibleOf running stopped) : ¬ t.keys ∈ running.map Task.keys := by
  have h2 := (List.mem_filter.1 h).2
  simpa using h2

lemma admitLoop_pairwise (w : Window) : ∀ (fuel : ℕ)
    (running stopped stops starts : List Task),
    running.Pairwise (fun a b => a.keys ≠ b.keys) →
    (admitLoop w fuel running stopped stops starts).error = false →
    (admitLoop w fuel running stopped stops starts).running.Pairwise
      (fun a b => a.keys ≠ b.keys) := by
  intro fuel
  induction fuel with
  | zero =>
    intro r s st sa _ he
    simp [admitLoop] at he
  | succ n ih =>
    intro r s st sa hp he
    unfold admitLoop at he ⊢
    split at he
    · rename_i heq
      simp at he
    · rename_i heq
      simp only [heq]
      exact hp
    · rename_i u heq
      have hu1 := (elect_task_gates w r s u heq).1
      split at he
      · rename_i hm
        rw [if_pos hm]
        refine ih _ _ _ _ ?_ he
        rw [List.pairwise_append]
        refine ⟨hp, List.pairwise_singleton _ _, ?_⟩
        intro a ha b hb
        rw [List.mem_singleton] at hb
        intro hkeys
        rw [hb] at hkeys
        exact (eligibleOf_keys r s u hu1)
          (hkeys ▸ List.mem_map_of_mem Task.keys ha)
      · simp at he

lemma evictionSweep_ok_pairwise (w : Window) (running stopped adjustable : List Task)
    (hn : (running.map Task.id).Nodup)
    (he : (evictionSweep w running stopped adjustable).error = false) :
    (evictionSweep w running stopped adjustable).running.Pairwise
      (fun a b => a.keys ≠ b.keys) := by
  unfold evictionSweep at he ⊢
  split at he
  · rename_i c1 crest hc
    exfalso
    have herr := applyStops_conflicts_error running stopped hn (by rw [hc]; simp)
    rw [hc] at herr
    rw [herr] at he
    cases he
  · rename_i hc
    have hpair : running.Pairwise (fun a b => a.keys ≠ b.keys) :=
      conflicts_nil_pairwise running hc
    split at he
    · exact hpair
    · exact hpair.sublist (applyStops_running_sublist _ _ _ _)
    · split at he
      · exact hpair.sublist (applyStops_running_sublist _ _ _ _)
      · split at he
        · exact hpair
        · exact hpair.sublist (applyStops_running_sublist _ _ _ _)
        · exact hpair

lemma afterSweep_pairwise (w : Window) (S : SweepOut)
    (hp : S.error = false → S.running.Pairwise (fun a b => a.keys ≠ b.keys))
    (he : (afterSweep w S).error = false) :
    (afterSweep w S).running.Pairwise (fun a b => a.keys ≠ b.keys) := by
  unfold afterSweep at he ⊢
  split at he
  · cases he
  · rename_i hse
    rw [if_neg hse]
    exact admitLoop_pairwise w _ _ _ _ _ (hp (by simpa using hse)) he

/-- C1 (amended): the keyed-resource conflict the scheduler acts on is
whole-list equality of `keys`, not element overlap, and when the
equal-keys eviction rule fires its duplicated victim list makes the
removal loop raise `ValueError`, aborting the cycle; consequently, on
every cycle of `schedule()` over distinct registered tasks that
completes without an exception, no two tasks left running have equal
`keys` lists, and the admission sweep never starts a stopped task whose
`keys` list equals that of a running task. -/
theorem thm_C1 : ∀ (w : Window) (tasks : List Task),
    (tasks.map Task.id).Nodup →
    (schedule false w tasks).error = false →
    (schedule false w tasks).running.Pairwise (fun a b => a.keys ≠ b.keys) := by
  intro w tasks hn he
  have hrn : ((runningOf tasks).map Task.id).Nodup := by
    have hperm := sortBy_perm (fun a b => compare_task a b < 0)
      (tasks.filter (fun t => t.is_running))
    have h1 : ((tasks.filter (fun t => t.is_running)).map Task.id).Nodup :=
      ((List.filter_sublist tasks).map Task.id).nodup hn
    exact ((hperm.map Task.id).nodup_iff).2 h1
  unfold schedule at he ⊢
  rw [if_neg (by simp)] at he ⊢
  by_cases hre : (runningOf tasks).isEmpty = true
  · rw [if_pos hre] at he ⊢
    refine afterSweep_pairwise w _ ?_ he
    intro _
    have h0 : runningOf tasks = [] := by simpa using hre
    simp [h0]
  · rw [if_neg hre] at he ⊢
    refine afterSweep_pairwise w _ ?_ he
    intro hse
    exact evictionSweep_ok_pairwise w _ _ _ hrn hse

/-- Witness for C1: a cycle with one running task that meets its
criteria completes without error, and its final running list is
pairwise distinct in keys. -/
theorem wit_C1 :
    (schedule false winW [tW1]).running.Pairwise (fun a b => a.keys ≠ b.keys) :=
  thm_C1 winW [tW1] (by decide)
    (by norm_num +decide [schedule, afterSweep, evictionSweep, applyStops,
      admitLoop, elect_task, elect_taskAux, eligibleOf, meanPriorityQ,
      find_conflicting_power_keys, find_failing_criteria,
      find_dimishing_adjustable, find_lower_priority_tasks, runningOf,
      runnableOf, stoppedOf, adjustableOf, sortBy, insertBy, compare_task,
      memById, removeById, Window.covered_by_production, Window.power_used_by,
      Window.available_for, Window.latest, reducer_step, minimize, suppress,
      rmodify, rget?, rset, usage, set_usage, winW, recW, tW1])

/-- Counterexample for C1 as stated: two running tasks whose keys lists
overlap on channel `b` without being equal are not treated as a
conflict; the cycle completes normally with both still running, so two
running tasks do share a `keys` element at the end of the cycle. -/
theorem cex_C1 :
    (schedule false winOV [tOV1, tOV2]).error = false ∧
    ¬ (schedule false winOV [tOV1, tOV2]).running.Pairwise
        (fun a b => ∀ k, k ∈ a.keys → k ∉ b.keys) := by
  constructor <;>
  norm_num +decide [schedule, afterSweep, evictionSweep, applyStops, admitLoop,
    elect_task, elect_taskAux, eligibleOf, meanPriorityQ,
    find_conflicting_power_keys, find_failing_criteria,
    find_dimishing_adjustable, find_lower_priority_tasks, runningOf,
    runnableOf, stoppedOf, adjustableOf, sortBy, insertBy, compare_task,
    memById, removeById, Window.covered_by_production, Window.power_used_by,
    Window.available_for, Window.latest, reducer_step, minimize, suppress,
    rmodify, rget?, rset, usage, set_usage, winOV, recOV, tOV1, tOV2]

/-- Counterexample for C2 as stated: two running tasks with equal keys
lists where the duplicate is not stoppable; the conflict rule still
issues `stop()` to the non-stoppable task. -/
theorem cex_C2 :
    tCF2.is_stoppable = false ∧
    tCF2 ∈ (schedule false win0 [tCF1, tCF2]).stops := by
  constructor
  · rfl
  · norm_num +decide [schedule, afterSweep, evictionSweep, applyStops, admitLoop,
      elect_task, elect_taskAux, eligibleOf, meanPriorityQ,
      find_conflicting_power_keys, find_failing_criteria,
      find_dimishing_adjustable, find_lower_priority_tasks, runningOf,
      runnableOf, stoppedOf, adjustableOf, sortBy, insertBy, compare_task,
      memById, removeById, Window.covered_by_production, Window.power_used_by,
      Window.available_for, Window.latest, reducer_step, minimize, suppress,
      rmodify, rget?, rset, usage, set_usage, win0, tCF1, tCF2]

/-- Witness for C2: a running stoppable task that fails its running
criteria is stopped, and the theorem reports it stoppable or a conflict
victim. -/
theorem wit_C2 :
    tFC.is_stoppable = true ∨
    tFC ∈ find_conflicting_power_keys (runningOf [tFC]) :=
  thm_C2 false winW [tFC] tFC
    (by norm_num +decide [schedule, afterSweep, evictionSweep, applyStops,
      admitLoop, elect_task, elect_taskAux, eligibleOf, meanPriorityQ,
      find_conflicting_power_keys, find_failing_criteria,
      find_dimishing_adjustable, find_lower_priority_tasks, runningOf,
      runnableOf, stoppedOf, adjustableOf, sortBy, insertBy, compare_task,
      memById, removeById, Window.covered_by_production, Window.power_used_by,
      Window.available_for, Window.latest, reducer_step, minimize, suppress,
      rmodify, rget?, rset, usage, set_usage, winW, recW, tFC])

/-- Witness for C3: an admission cycle that starts the stopped task
`tST`, which is runnable, and the election gates evaluated at that
concrete state. -/
theorem wit_C3 :
    tST.is_runnable = true ∧
    (tST.is_runnable = true ∧
      ∃ rat, winST.available_for tST [] (eligibleOf [] [tST]) = some rat ∧
        tST.meet_running_criteria rat 0 = true ∧
        ((tST.priority : ℚ) ≥ meanPriorityQ [] ∨ tST.auto_adjust = true)) :=
  ⟨thm_C3.1 false winST [tST] tST
    (by norm_num +decide [schedule, afterSweep, evictionSweep, applyStops,
      admitLoop, elect_task, elect_taskAux, eligibleOf, meanPriorityQ,
      find_conflicting_power_keys, find_failing_criteria,
      find_dimishing_adjustable, find_lower_priority_tasks, runningOf,
      runnableOf, stoppedOf, adjustableOf, sortBy, insertBy, compare_task,
      memById, removeById, Window.covered_by_production, Window.power_used_by,
      Window.available_for, Window.latest, reducer_step, minimize, suppress,
      rmodify, rget?, rset, usage, set_usage, winST, recST, tST]),
   thm_C3.2 winST [] [tST] tST
    (by norm_num +decide [elect_task, elect_taskAux, eligibleOf, meanPriorityQ,
      Window.available_for, Window.latest, minimize, suppress,
      rmodify, rget?, rset, usage, set_usage, winST, recST, tST])⟩

end HM
